import Mathlib

/-!
Verification of the account-identity core of efficio-webapp.

Embedded sources:
* src/src/db/users.rs       (v1 core: save_user, verify_password, delete_user, regen_auth)
* src/src/types.rs          (User, AuthInfo, Token)
* src/backend/src/error.rs  (ServerError, status constants, the From conversions)
* src/backend/src/db/ids.rs (hash, get_next_id)

The redis backend is modelled as an explicit state: `Store` for the v1
account core and `IdStore` for the v2 obfuscated-id generator.  Each redis
command an operation issues is also recorded as an event, in program order,
so the order of backend writes inside one operation is itself part of the
model; the final state of an operation is by definition the fold of its
event list over the initial state.  The external argon2 primitive (crate
argon2rs, not part of this repository) is an explicit function parameter
`argon2i`; its lowercase-hex rendering (crate hex_view) is embedded as
`hexOfBytes`.  Randomness (rand::thread_rng) is passed via explicit string
parameters.  The v1 modules db::sessions and db::stores are not among the
given sources; their operations are modelled from the spec as marked on
each definition.
-/

namespace Efficio

/-! ## Hashing (users.rs lines 22-27, ids.rs lines 19-24) -/

/-- One lowercase hex digit. -/
def hexDigit (n : Nat) : Char :=
  if n < 10 then Char.ofNat (48 + n) else Char.ofNat (87 + n)

/-- A byte rendered as two lowercase hex digits, as hex_view zero-pads each u8. -/
def byteHex (b : Nat) : String :=
  String.mk [hexDigit (b / 16 % 16), hexDigit (b % 16)]

/-- Lowercase-hex rendering of a byte string, as hex_view prints a u8 slice. -/
def hexOfBytes (bs : List Nat) : String :=
  String.join (bs.map byteHex)

/-- The hash of users.rs line 22 and ids.rs line 19: the lowercase-hex rendering
of argon2i_simple(data, salt).  The argon2 primitive is external crate code
and is passed as the parameter `argon2i` (32 output bytes in the real crate). -/
def hash (argon2i : String → String → List Nat) (data salt : String) : String :=
  hexOfBytes (argon2i data salt)

/-- ASCII lower-casing of one character (A-Z mapped to a-z). -/
def lowerChar (c : Char) : Char :=
  if 65 ≤ c.toNat ∧ c.toNat ≤ 90 then Char.ofNat (c.toNat + 32) else c

/-- Model of Rust str::to_lowercase, used for username normalization (the
source lower-cases the full Unicode range; the model covers ASCII, which is
the identity on the remaining characters it handles). -/
def to_lowercase (s : String) : String :=
  String.mk (s.data.map lowerChar)

/-! ## Errors (src/backend/src/error.rs; the v1 error module is not among the
given sources and uses the same constant names, spec section 7).  Status
codes are the numeric values of the warp StatusCode constants. -/

def USERNAME_TAKEN : Nat := 406
def INVALID_USER_OR_PWD : Nat := 400
def UNAUTHORISED : Nat := 401
def PERMISSION_DENIED : Nat := 403
def INTERNAL_ERROR : Nat := 500

structure ServerError where
  status : Nat
  msg : String
deriving DecidableEq, Repr

def ServerError.new (status : Nat) (msg : String) : ServerError :=
  { status := status, msg := msg }

/-- A raw backend (redis crate) error, carried by its display string. -/
structure RedisError where
  msg : String
deriving DecidableEq, Repr

/-- A connection-pool (r2d2 crate) error, carried by its display string. -/
structure R2d2Error where
  msg : String
deriving DecidableEq, Repr

/-- impl From RedisError for ServerError (error.rs lines 30-37). -/
def ServerError.ofRedisError (err : RedisError) : ServerError :=
  { status := INTERNAL_ERROR, msg := err.msg }

/-- impl From r2d2::Error for ServerError (error.rs lines 45-52). -/
def ServerError.ofR2d2Error (err : R2d2Error) : ServerError :=
  { status := INTERNAL_ERROR, msg := err.msg }

/-- The redis client conversion error raised when a reply cannot be read at
the requested type: reading an absent hash field as String, or an integer
reply beyond the u32 range as u32. -/
def redisTypeError : RedisError :=
  { msg := "Response was of incompatible type" }

/-! ## Data types (src/src/types.rs) -/

structure User where
  username : String
  email : String
  password : String
deriving DecidableEq, Repr

structure AuthInfo where
  username : String
  password : String
deriving DecidableEq, Repr

structure Token where
  session_token : String
deriving DecidableEq, Repr

/-! ## Key and field names (users.rs lines 13-20) -/

def NEXT_USER_ID : String := "next_user_id"
def USER_PWD : String := "password"
def USER_MAIL : String := "email"
def USER_SALT_M : String := "salt_mail"
def USER_SALT_P : String := "salt_password"
def USER_NAME : String := "username"
def USER_AUTH : String := "auth"
def USERS_LIST : String := "users"

/-- The rendered redis key of an account record (users.rs lines 29-31).  The
model keys account records by their numeric id directly; the "user:" prefix
makes these keys a distinct namespace from the index hash "users" and the
counter "next_user_id", which the model reflects by separate state fields. -/
def user_key (user_id : Nat) : String :=
  "user:" ++ toString user_id

/-! ## The v1 database state -/

/-- The redis database state used by the v1 account core.  Redis key
namespaces (the counter next_user_id, the record keys rendered by user_key,
the index hash "users") are disjoint, so each is a separate field; account
records are keyed by their numeric id.  `sessions` models the session store
of db::sessions and `resources` the account-owned data behind db::stores,
both absent from the given sources (modelled from the spec, sections 4.4
and 6). -/
structure Store where
  nextUserId : Nat
  records : Nat → String → Option String
  usersList : String → Option Nat
  sessions : String → Option Nat
  resources : Nat → List String

def emptyStore : Store :=
  { nextUserId := 0
    records := fun _ _ => none
    usersList := fun _ => none
    sessions := fun _ => none
    resources := fun _ => [] }

/-- hset_multiple: set the given fields, in order, on one hash record. -/
def setFields (record : String → Option String) :
    List (String × String) → (String → Option String)
  | [] => record
  | (field, value) :: rest =>
    setFields (fun f => if f = field then some value else record f) rest

/-- Modelled from the spec: db::sessions::store_session (the sessions module
is not among the given sources).  Spec 4.4: store(token, accountId) is an
unconditional upsert. -/
def store_session (token : String) (user_id : Nat) (st : Store) : Store :=
  { st with sessions := fun t => if t = token then some user_id else st.sessions t }

/-- Modelled from the spec: db::sessions::get_user_id, the resolve operation.
Spec 4.4: resolve(token) fails with Unauthorized when the token is absent. -/
def get_user_id (st : Store) (auth : String) : Except ServerError Nat :=
  match st.sessions auth with
  | some user_id => Except.ok user_id
  | none => Except.error (ServerError.new UNAUTHORISED "Unauthorized")

/-- Modelled from the spec: db::sessions::delete_all_user_sessions.  Spec 4.4
revokeAll: removes every session entry of the account that `auth` resolves
to; on an unresolvable token it removes nothing. -/
def delete_all_user_sessions (auth : String) (st : Store) : Store :=
  match st.sessions auth with
  | some user_id =>
    { st with sessions := fun t =>
        if st.sessions t = some user_id then none else st.sessions t }
  | none => st

/-- Modelled from the spec: db::stores::delete_all_user_stores (spec section
6, cascading-delete boundary): deletes every resource owned by the account
that `auth` resolves to. -/
def delete_all_user_stores (auth : String) (st : Store) : Store :=
  match st.sessions auth with
  | some user_id =>
    { st with resources := fun i => if i = user_id then [] else st.resources i }
  | none => st

/-- One backend command issued by the v1 account core, recorded in program
order.  Reads are recorded too; only writes change the store. -/
inductive Ev where
  | hexistsUsers (field : String)
  | incrNextUserId
  | hsetRecord (user_id : Nat) (fields : List (String × String))
  | hsetUsers (field : String) (user_id : Nat)
  | storeSession (token : String) (user_id : Nat)
  | getSession (token : String)
  | hgetRecord (user_id : Nat) (field : String)
  | deleteAllUserStores (token : String)
  | hdelUsers (field : String)
  | deleteAllUserSessions (token : String)
  | delRecord (user_id : Nat)
deriving DecidableEq, Repr

/-- The effect of one backend command on the database state. -/
def applyEv (st : Store) : Ev → Store
  | .hexistsUsers _ => st
  | .incrNextUserId => { st with nextUserId := st.nextUserId + 1 }
  | .hsetRecord user_id fields =>
    { st with records := fun i =>
        if i = user_id then setFields (st.records user_id) fields else st.records i }
  | .hsetUsers field user_id =>
    { st with usersList := fun k => if k = field then some user_id else st.usersList k }
  | .storeSession token user_id => store_session token user_id st
  | .getSession _ => st
  | .hgetRecord _ _ => st
  | .deleteAllUserStores token => delete_all_user_stores token st
  | .hdelUsers field =>
    { st with usersList := fun k => if k = field then none else st.usersList k }
  | .deleteAllUserSessions token => delete_all_user_sessions token st
  | .delRecord user_id =>
    { st with records := fun i => if i = user_id then (fun _ => none) else st.records i }

def applyEvs (st : Store) (evs : List Ev) : Store :=
  evs.foldl applyEv st

/-! ## The v1 operations (src/src/db/users.rs) -/

/-- The field/value pairs of the hset_multiple of users.rs lines 56-66, in
source order. -/
def recordFields (argon2i : String → String → List Nat)
    (auth salt_mail salt_pwd : String) (user : User) : List (String × String) :=
  [(USER_NAME, user.username), (USER_MAIL, hash argon2i user.email salt_mail),
   (USER_PWD, hash argon2i user.password salt_pwd), (USER_SALT_M, salt_mail),
   (USER_SALT_P, salt_pwd), (USER_AUTH, auth)]

/-- The backend commands of the successful registration path, in program
order (users.rs lines 42-68). -/
def saveEvs (argon2i : String → String → List Nat)
    (auth salt_mail salt_pwd : String) (user : User) (user_id : Nat) : List Ev :=
  [Ev.hexistsUsers (to_lowercase user.username), Ev.incrNextUserId,
   Ev.hsetRecord user_id (recordFields argon2i auth salt_mail salt_pwd user),
   Ev.hsetUsers (to_lowercase user.username) user_id,
   Ev.storeSession auth user_id]

/-- save_user (users.rs lines 39-71).  The generated session token `auth` and
the two fresh salts are explicit parameters standing for thread_rng output.
The incr reply is read back as u32, so the conversion fails past the u32
range, with the increment already applied server-side.  The result carries
the final store and the ordered list of backend commands issued. -/
def save_user (argon2i : String → String → List Nat)
    (auth salt_mail salt_pwd : String) (user : User) (st : Store) :
    Except ServerError Token × Store × List Ev :=
  let norm_username := (to_lowercase user.username)
  if (st.usersList norm_username).isSome then
    (Except.error (ServerError.new USERNAME_TAKEN
        ("Username " ++ user.username ++ " is not available.")),
     st, [Ev.hexistsUsers norm_username])
  else
    if st.nextUserId + 1 < 2 ^ 32 then
      let evs := saveEvs argon2i auth salt_mail salt_pwd user (st.nextUserId + 1)
      (Except.ok { session_token := auth }, applyEvs st evs, evs)
    else
      (Except.error (ServerError.ofRedisError redisTypeError),
       applyEvs st [Ev.hexistsUsers norm_username, Ev.incrNextUserId],
       [Ev.hexistsUsers norm_username, Ev.incrNextUserId])

/-- The backend commands of the successful account-deletion path, in program
order (users.rs lines 74-81). -/
def deleteEvs (auth : String) (user_id : Nat) (username : String) : List Ev :=
  [Ev.getSession auth, Ev.hgetRecord user_id USER_NAME,
   Ev.deleteAllUserStores auth, Ev.hdelUsers (to_lowercase username),
   Ev.deleteAllUserSessions auth, Ev.delRecord user_id]

/-- delete_user (users.rs lines 73-82).  The session resolution and the
username read precede all writes; a missing record surfaces as the redis
type-conversion error (hget of an absent field read back as String). -/
def delete_user (st : Store) (auth : String) :
    Except ServerError Unit × Store × List Ev :=
  match st.sessions auth with
  | none =>
    (Except.error (ServerError.new UNAUTHORISED "Unauthorized"), st,
     [Ev.getSession auth])
  | some user_id =>
    match st.records user_id USER_NAME with
    | none =>
      (Except.error (ServerError.ofRedisError redisTypeError), st,
       [Ev.getSession auth, Ev.hgetRecord user_id USER_NAME])
    | some username =>
      let evs := deleteEvs auth user_id username
      (Except.ok (), applyEvs st evs, evs)

/-- verify_password (users.rs lines 84-108).  The username lookup collapses
its failure into the single InvalidCredentials error (the or_else in the
source); the later salt, password and auth reads go through the question
mark operator and surface conversion failures unchanged. -/
def verify_password (argon2i : String → String → List Nat)
    (st : Store) (auth_info : AuthInfo) : Except ServerError (Token × Nat) :=
  match st.usersList (to_lowercase auth_info.username) with
  | none =>
    Except.error (ServerError.new INVALID_USER_OR_PWD "Invalid usename or password")
  | some user_id =>
    match st.records user_id USER_SALT_P with
    | none => Except.error (ServerError.ofRedisError redisTypeError)
    | some salt_pwd =>
      match st.records user_id USER_PWD with
      | none => Except.error (ServerError.ofRedisError redisTypeError)
      | some stored_pwd =>
        if hash argon2i auth_info.password salt_pwd = stored_pwd then
          match st.records user_id USER_AUTH with
          | none => Except.error (ServerError.ofRedisError redisTypeError)
          | some auth => Except.ok ({ session_token := auth }, user_id)
        else
          Except.error (ServerError.new INVALID_USER_OR_PWD "Invalid usename or password")

/-- regen_auth (users.rs lines 110-114): hset of a fresh session token on the
account record; the fresh random token is the explicit parameter auth2. -/
def regen_auth (auth2 : String) (user_id : Nat) (st : Store) : Store :=
  { st with records := fun i =>
      if i = user_id then
        (fun f => if f = USER_AUTH then some auth2 else st.records user_id f)
      else st.records i }

/-! ## The v2 obfuscated id generator (src/backend/src/db/ids.rs) -/

/-- The slice of the redis state touched by get_next_id: the named counter
(absent keys count as 0 for incr) and the named salt scalar. -/
structure IdStore where
  counter : Nat
  salt : Option String
deriving Repr

/-- One backend command issued by get_next_id, in program order.  setSalt is
the unconditional redis SET; setSaltNX is the conditional set-if-absent
primitive the backend also offers (spec section 6) - the model includes it
so that trace properties can distinguish the two write kinds. -/
inductive IdEv where
  | incr
  | existsSalt
  | getSalt
  | setSalt (value : String)
  | setSaltNX (value : String)
deriving DecidableEq, Repr

def applyIdEv (st : IdStore) : IdEv → IdStore
  | .incr => { st with counter := st.counter + 1 }
  | .existsSalt => st
  | .getSalt => st
  | .setSalt value => { st with salt := some value }
  | .setSaltNX value =>
    match st.salt with
    | some _ => st
    | none => { st with salt := some value }

def applyIdEvs (st : IdStore) (evs : List IdEv) : IdStore :=
  evs.foldl applyIdEv st

/-- get_next_id (ids.rs lines 35-55), generic over the target id type RV via
its FromStr parse function.  The fresh salt that generate_salt would draw is
the explicit parameter `gensalt`.  The incr reply is read back as u32, so
the conversion fails past the u32 range (with the increment already applied
server-side).  A parse failure of the hashed id is the fatal internal error
of ids.rs line 50 (source message abridged of its apostrophe). -/
def get_next_id {RV : Type} (argon2i : String → String → List Nat)
    (from_str : String → Option RV) (gensalt : String) (st : IdStore) :
    Except ServerError RV × IdStore × List IdEv :=
  if st.counter + 1 < 2 ^ 32 then
    let id := st.counter + 1
    let saltEvs : String × List IdEv :=
      match st.salt with
      | some s => (s, [IdEv.incr, IdEv.existsSalt, IdEv.getSalt])
      | none => (gensalt, [IdEv.incr, IdEv.existsSalt, IdEv.setSalt gensalt])
    let result : Except ServerError RV :=
      match from_str (hash argon2i (toString id) saltEvs.1) with
      | some rv => Except.ok rv
      | none => Except.error (ServerError.new INTERNAL_ERROR
          "Creation of hashed id failed, cannot be")
    (result, applyIdEvs st saltEvs.2, saltEvs.2)
  else
    (Except.error (ServerError.ofRedisError redisTypeError),
     applyIdEvs st [IdEv.incr], [IdEv.incr])

/-- Iterate get_next_id with the identity parse (RV = String, so the returned
value is the hashed id itself), collecting the results in call order. -/
def runNextIds (argon2i : String → String → List Nat) (gensalt : String) :
    Nat → IdStore → List (Except ServerError String) × IdStore
  | 0, st => ([], st)
  | n + 1, st =>
    let step := get_next_id argon2i (fun s => some s) gensalt st
    let rest := runNextIds argon2i gensalt n step.2.1
    (step.1 :: rest.1, rest.2)

/-! ## Reachable states and the storage invariant of the v1 core -/

/-- The storage states reachable from the empty database through the account
lifecycle operations: registration, account deletion, login (verify, then
store the returned session token - spec section 4.5) and credential
re-issue on a resolved session. -/
inductive Reach : Store → Prop where
  | init : Reach emptyStore
  | save (argon2i : String → String → List Nat) (auth salt_mail salt_pwd : String)
      (user : User) (st : Store) : Reach st →
      Reach (save_user argon2i auth salt_mail salt_pwd user st).2.1
  | delete (st : Store) (auth : String) : Reach st →
      Reach (delete_user st auth).2.1
  | login (argon2i : String → String → List Nat) (st : Store) (info : AuthInfo)
      (tok : Token) (user_id : Nat) : Reach st →
      verify_password argon2i st info = Except.ok (tok, user_id) →
      Reach (store_session tok.session_token user_id st)
  | reissue (st : Store) (auth auth2 : String) (user_id : Nat) : Reach st →
      get_user_id st auth = Except.ok user_id →
      Reach (regen_auth auth2 user_id st)

/-- The storage invariant of the v1 account core:
1. every record username maps back, lower-cased, to its own record id in the
   username index;
2. records only exist at ids the counter has reached;
3. sessions resolve to ids the counter has reached;
4. every index entry points at an id the counter has reached and at an
   existing record whose lower-cased username is the index key. -/
def Inv (st : Store) : Prop :=
  (∀ user_id name, st.records user_id USER_NAME = some name →
      st.usersList (to_lowercase name) = some user_id) ∧
  (∀ user_id field, st.nextUserId < user_id → st.records user_id field = none) ∧
  (∀ token user_id, st.sessions token = some user_id → user_id ≤ st.nextUserId) ∧
  (∀ key user_id, st.usersList key = some user_id →
      user_id ≤ st.nextUserId ∧
      ∃ name, st.records user_id USER_NAME = some name ∧ (to_lowercase name) = key)

/-! ## State characterization lemmas -/

theorem save_user_taken (argon2i : String → String → List Nat)
    (auth salt_mail salt_pwd : String) (user : User) (st : Store)
    (h : (st.usersList (to_lowercase user.username)).isSome = true) :
    save_user argon2i auth salt_mail salt_pwd user st =
      (Except.error (ServerError.new USERNAME_TAKEN
          ("Username " ++ user.username ++ " is not available.")),
       st, [Ev.hexistsUsers (to_lowercase user.username)]) := by
  simp [save_user, h]

theorem save_user_ok (argon2i : String → String → List Nat)
    (auth salt_mail salt_pwd : String) (user : User) (st : Store)
    (hfree : st.usersList (to_lowercase user.username) = none)
    (hlt : st.nextUserId + 1 < 2 ^ 32) :
    save_user argon2i auth salt_mail salt_pwd user st =
      (Except.ok { session_token := auth },
       applyEvs st (saveEvs argon2i auth salt_mail salt_pwd user (st.nextUserId + 1)),
       saveEvs argon2i auth salt_mail salt_pwd user (st.nextUserId + 1)) := by
  simp [save_user, hfree, hlt]
  omega

theorem saveState_nextUserId (argon2i : String → String → List Nat)
    (auth salt_mail salt_pwd : String) (user : User) (st : Store) (user_id : Nat) :
    (applyEvs st (saveEvs argon2i auth salt_mail salt_pwd user user_id)).nextUserId =
      st.nextUserId + 1 := rfl

theorem saveState_usersList (argon2i : String → String → List Nat)
    (auth salt_mail salt_pwd : String) (user : User) (st : Store) (user_id : Nat)
    (k : String) :
    (applyEvs st (saveEvs argon2i auth salt_mail salt_pwd user user_id)).usersList k =
      if k = (to_lowercase user.username) then some user_id else st.usersList k := rfl

theorem saveState_sessions (argon2i : String → String → List Nat)
    (auth salt_mail salt_pwd : String) (user : User) (st : Store) (user_id : Nat)
    (t : String) :
    (applyEvs st (saveEvs argon2i auth salt_mail salt_pwd user user_id)).sessions t =
      if t = auth then some user_id else st.sessions t := rfl

theorem saveState_resources (argon2i : String → String → List Nat)
    (auth salt_mail salt_pwd : String) (user : User) (st : Store) (user_id : Nat) :
    (applyEvs st (saveEvs argon2i auth salt_mail salt_pwd user user_id)).resources =
      st.resources := rfl

theorem saveState_records (argon2i : String → String → List Nat)
    (auth salt_mail salt_pwd : String) (user : User) (st : Store) (user_id : Nat)
    (i : Nat) (f : String) :
    (applyEvs st (saveEvs argon2i auth salt_mail salt_pwd user user_id)).records i f =
      if i = user_id then
        (if f = USER_AUTH then some auth
         else if f = USER_SALT_P then some salt_pwd
         else if f = USER_SALT_M then some salt_mail
         else if f = USER_PWD then some (hash argon2i user.password salt_pwd)
         else if f = USER_MAIL then some (hash argon2i user.email salt_mail)
         else if f = USER_NAME then some user.username
         else st.records user_id f)
      else st.records i f := by
  by_cases h : i = user_id <;>
    simp [applyEvs, saveEvs, applyEv, recordFields, setFields, store_session, h]

theorem save_user_overflow (argon2i : String → String → List Nat)
    (auth salt_mail salt_pwd : String) (user : User) (st : Store)
    (hfree : st.usersList (to_lowercase user.username) = none)
    (hge : ¬ st.nextUserId + 1 < 2 ^ 32) :
    save_user argon2i auth salt_mail salt_pwd user st =
      (Except.error (ServerError.ofRedisError redisTypeError),
       { st with nextUserId := st.nextUserId + 1 },
       [Ev.hexistsUsers (to_lowercase user.username), Ev.incrNextUserId]) := by
  simp [save_user, hfree, hge, applyEvs, applyEv]
  omega

theorem delete_user_no_session (st : Store) (auth : String)
    (h : st.sessions auth = none) :
    delete_user st auth =
      (Except.error (ServerError.new UNAUTHORISED "Unauthorized"), st,
       [Ev.getSession auth]) := by
  simp [delete_user, h]

theorem delete_user_no_record (st : Store) (auth : String) (user_id : Nat)
    (hsess : st.sessions auth = some user_id)
    (hname : st.records user_id USER_NAME = none) :
    delete_user st auth =
      (Except.error (ServerError.ofRedisError redisTypeError), st,
       [Ev.getSession auth, Ev.hgetRecord user_id USER_NAME]) := by
  simp [delete_user, hsess, hname]

theorem delete_user_ok (st : Store) (auth : String) (user_id : Nat)
    (username : String) (hsess : st.sessions auth = some user_id)
    (hname : st.records user_id USER_NAME = some username) :
    delete_user st auth =
      (Except.ok (), applyEvs st (deleteEvs auth user_id username),
       deleteEvs auth user_id username) := by
  simp [delete_user, hsess, hname]

theorem deleteState_nextUserId (st : Store) (auth : String) (user_id : Nat)
    (username : String) (hsess : st.sessions auth = some user_id) :
    (applyEvs st (deleteEvs auth user_id username)).nextUserId = st.nextUserId := by
  simp [applyEvs, deleteEvs, applyEv, delete_all_user_stores,
    delete_all_user_sessions, hsess]

theorem deleteState_records (st : Store) (auth : String) (user_id : Nat)
    (username : String) (hsess : st.sessions auth = some user_id)
    (i : Nat) (f : String) :
    (applyEvs st (deleteEvs auth user_id username)).records i f =
      if i = user_id then none else st.records i f := by
  by_cases h : i = user_id <;>
    simp [applyEvs, deleteEvs, applyEv, delete_all_user_stores,
      delete_all_user_sessions, hsess, h]

theorem deleteState_usersList (st : Store) (auth : String) (user_id : Nat)
    (username : String) (hsess : st.sessions auth = some user_id) (k : String) :
    (applyEvs st (deleteEvs auth user_id username)).usersList k =
      if k = (to_lowercase username) then none else st.usersList k := by
  simp [applyEvs, deleteEvs, applyEv, delete_all_user_stores,
    delete_all_user_sessions, hsess]

theorem deleteState_sessions (st : Store) (auth : String) (user_id : Nat)
    (username : String) (hsess : st.sessions auth = some user_id) (t : String) :
    (applyEvs st (deleteEvs auth user_id username)).sessions t =
      if st.sessions t = some user_id then none else st.sessions t := by
  simp [applyEvs, deleteEvs, applyEv, delete_all_user_stores,
    delete_all_user_sessions, hsess]

theorem deleteState_resources (st : Store) (auth : String) (user_id : Nat)
    (username : String) (hsess : st.sessions auth = some user_id) (i : Nat) :
    (applyEvs st (deleteEvs auth user_id username)).resources i =
      if i = user_id then [] else st.resources i := by
  by_cases h : i = user_id <;>
    simp [applyEvs, deleteEvs, applyEv, delete_all_user_stores,
      delete_all_user_sessions, hsess, h]

theorem save_user_taken_state (argon2i : String → String → List Nat)
    (auth salt_mail salt_pwd : String) (user : User) (st : Store)
    (h : (st.usersList (to_lowercase user.username)).isSome = true) :
    (save_user argon2i auth salt_mail salt_pwd user st).2.1 = st := by
  rw [save_user_taken argon2i auth salt_mail salt_pwd user st h]

theorem save_user_ok_state (argon2i : String → String → List Nat)
    (auth salt_mail salt_pwd : String) (user : User) (st : Store)
    (hfree : st.usersList (to_lowercase user.username) = none)
    (hlt : st.nextUserId + 1 < 2 ^ 32) :
    (save_user argon2i auth salt_mail salt_pwd user st).2.1 =
      applyEvs st (saveEvs argon2i auth salt_mail salt_pwd user (st.nextUserId + 1)) := by
  rw [save_user_ok argon2i auth salt_mail salt_pwd user st hfree hlt]

/-- A successful credential check implies the username-index lookup that
verify_password performed first. -/
theorem verify_password_ok_usersList (argon2i : String → String → List Nat)
    (st : Store) (info : AuthInfo) (tok : Token) (user_id : Nat)
    (h : verify_password argon2i st info = Except.ok (tok, user_id)) :
    st.usersList (to_lowercase info.username) = some user_id := by
  cases hu : st.usersList (to_lowercase info.username) with
  | none => simp [verify_password, hu] at h
  | some v =>
    simp only [verify_password, hu] at h
    cases hs : st.records v USER_SALT_P with
    | none => simp [hs] at h
    | some salt_pwd =>
      cases hp : st.records v USER_PWD with
      | none => simp [hs, hp] at h
      | some stored_pwd =>
        simp only [hs, hp] at h
        by_cases he : hash argon2i info.password salt_pwd = stored_pwd
        · rw [if_pos he] at h
          cases ha : st.records v USER_AUTH with
          | none => simp [ha] at h
          | some auth =>
            simp only [ha, Except.ok.injEq, Prod.mk.injEq] at h
            exact congrArg some h.2
        · rw [if_neg he] at h
          exact absurd h (by simp)

theorem get_user_id_ok (st : Store) (auth : String) (user_id : Nat)
    (h : get_user_id st auth = Except.ok user_id) :
    st.sessions auth = some user_id := by
  cases hs : st.sessions auth with
  | none => simp [get_user_id, hs] at h
  | some v => simpa [get_user_id, hs] using h

/-! ## Invariant preservation -/

theorem inv_empty : Inv emptyStore := by
  refine ⟨?_, ?_, ?_, ?_⟩ <;> intro a b h <;> simp [emptyStore] at h ⊢

theorem inv_save (argon2i : String → String → List Nat)
    (auth salt_mail salt_pwd : String) (user : User) (st : Store) (h : Inv st) :
    Inv (save_user argon2i auth salt_mail salt_pwd user st).2.1 := by
  obtain ⟨h1, h2, h3, h4⟩ := h
  by_cases hfree : st.usersList (to_lowercase user.username) = none
  · by_cases hlt : st.nextUserId + 1 < 2 ^ 32
    · rw [save_user_ok_state argon2i auth salt_mail salt_pwd user st hfree hlt]
      refine ⟨?_, ?_, ?_, ?_⟩
      · intro user_id name hrec
        rw [saveState_records] at hrec
        rw [saveState_usersList]
        by_cases hi : user_id = st.nextUserId + 1
        · rw [if_pos hi] at hrec
          simp only [USER_NAME, USER_AUTH, USER_SALT_P, USER_SALT_M, USER_PWD,
            USER_MAIL] at hrec
          simp at hrec
          subst hrec
          simp [hi]
        · rw [if_neg hi] at hrec
          have := h1 user_id name hrec
          have hne : ¬ (to_lowercase name) = (to_lowercase user.username) := by
            intro hcontra
            rw [hcontra, hfree] at this
            exact Option.noConfusion this
          rw [if_neg hne]
          exact this
      · intro user_id field hgt
        rw [saveState_records]
        rw [saveState_nextUserId] at hgt
        rw [if_neg (by omega)]
        exact h2 user_id field (by omega)
      · intro token user_id hsess
        rw [saveState_sessions] at hsess
        rw [saveState_nextUserId]
        by_cases ht : token = auth
        · rw [if_pos ht] at hsess
          injection hsess with hv
          omega
        · rw [if_neg ht] at hsess
          have := h3 token user_id hsess
          omega
      · intro key user_id hkey
        rw [saveState_usersList] at hkey
        rw [saveState_nextUserId]
        by_cases hk : key = (to_lowercase user.username)
        · rw [if_pos hk] at hkey
          have hid : user_id = st.nextUserId + 1 := by
            injection hkey with hv
            omega
          refine ⟨by omega, user.username, ?_, hk.symm⟩
          rw [saveState_records]
          simp only [hid, if_pos rfl]
          simp [USER_NAME, USER_AUTH, USER_SALT_P, USER_SALT_M, USER_PWD, USER_MAIL]
        · rw [if_neg hk] at hkey
          obtain ⟨hle, name, hrec, hlow⟩ := h4 key user_id hkey
          refine ⟨by omega, name, ?_, hlow⟩
          rw [saveState_records]
          rw [if_neg (by omega)]
          exact hrec
    · have hst : (save_user argon2i auth salt_mail salt_pwd user st).2.1 =
          { st with nextUserId := st.nextUserId + 1 } := by
        rw [save_user_overflow argon2i auth salt_mail salt_pwd user st hfree hlt]
      rw [hst]
      refine ⟨fun i n hr => h1 i n hr, ?_, ?_, ?_⟩
      · intro user_id field hgt
        exact h2 user_id field (by simp at hgt; omega)
      · intro token user_id hsess
        have := h3 token user_id hsess
        simp
        omega
      · intro key user_id hkey
        obtain ⟨hle, name, hrec, hlow⟩ := h4 key user_id hkey
        exact ⟨by simp; omega, name, hrec, hlow⟩
  · have hsome : (st.usersList (to_lowercase user.username)).isSome = true :=
      Option.isSome_iff_ne_none.mpr hfree
    rw [save_user_taken_state argon2i auth salt_mail salt_pwd user st hsome]
    exact ⟨h1, h2, h3, h4⟩

theorem inv_delete (st : Store) (auth : String) (h : Inv st) :
    Inv (delete_user st auth).2.1 := by
  obtain ⟨h1, h2, h3, h4⟩ := h
  cases hsess : st.sessions auth with
  | none =>
    have hst : (delete_user st auth).2.1 = st := by
      rw [delete_user_no_session st auth hsess]
    rw [hst]
    exact ⟨h1, h2, h3, h4⟩
  | some user_id =>
    cases hname : st.records user_id USER_NAME with
    | none =>
      have hst : (delete_user st auth).2.1 = st := by
        rw [delete_user_no_record st auth user_id hsess hname]
      rw [hst]
      exact ⟨h1, h2, h3, h4⟩
    | some username =>
      have hst : (delete_user st auth).2.1 =
          applyEvs st (deleteEvs auth user_id username) := by
        rw [delete_user_ok st auth user_id username hsess hname]
      rw [hst]
      refine ⟨?_, ?_, ?_, ?_⟩
      · intro i name hrec
        rw [deleteState_records st auth user_id username hsess] at hrec
        rw [deleteState_usersList st auth user_id username hsess]
        by_cases hi : i = user_id
        · rw [if_pos hi] at hrec
          exact Option.noConfusion hrec
        · rw [if_neg hi] at hrec
          have hidx := h1 i name hrec
          have hne : ¬ (to_lowercase name) = (to_lowercase username) := by
            intro hcontra
            have hidx2 := h1 user_id username hname
            rw [hcontra, hidx2] at hidx
            injection hidx with hv
            exact hi hv.symm
          rw [if_neg hne]
          exact hidx
      · intro i field hgt
        rw [deleteState_records st auth user_id username hsess]
        rw [deleteState_nextUserId st auth user_id username hsess] at hgt
        by_cases hi : i = user_id
        · rw [if_pos hi]
        · rw [if_neg hi]
          exact h2 i field hgt
      · intro token i htok
        rw [deleteState_sessions st auth user_id username hsess] at htok
        rw [deleteState_nextUserId st auth user_id username hsess]
        by_cases hcur : st.sessions token = some user_id
        · rw [if_pos hcur] at htok
          exact Option.noConfusion htok
        · rw [if_neg hcur] at htok
          exact h3 token i htok
      · intro key i hkey
        rw [deleteState_usersList st auth user_id username hsess] at hkey
        rw [deleteState_nextUserId st auth user_id username hsess]
        by_cases hk : key = (to_lowercase username)
        · rw [if_pos hk] at hkey
          exact Option.noConfusion hkey
        · rw [if_neg hk] at hkey
          obtain ⟨hle, name, hrec, hlow⟩ := h4 key i hkey
          refine ⟨hle, name, ?_, hlow⟩
          rw [deleteState_records st auth user_id username hsess]
          have hi : ¬ i = user_id := by
            intro hcontra
            rw [hcontra, hname] at hrec
            injection hrec with hv
            rw [hv] at hk
            exact hk hlow.symm
          rw [if_neg hi]
          exact hrec

theorem inv_store_session (token : String) (user_id : Nat) (st : Store)
    (h : Inv st) (hle : user_id ≤ st.nextUserId) :
    Inv (store_session token user_id st) := by
  obtain ⟨h1, h2, h3, h4⟩ := h
  refine ⟨h1, h2, ?_, h4⟩
  intro t i ht
  simp only [store_session] at ht ⊢
  by_cases hc : t = token
  · rw [if_pos hc] at ht
    injection ht with hv
    omega
  · rw [if_neg hc] at ht
    exact h3 t i ht

theorem inv_regen_auth (auth2 : String) (user_id : Nat) (st : Store)
    (h : Inv st) (hle : user_id ≤ st.nextUserId) :
    Inv (regen_auth auth2 user_id st) := by
  obtain ⟨h1, h2, h3, h4⟩ := h
  have hrecords : ∀ i, (regen_auth auth2 user_id st).records i USER_NAME =
      st.records i USER_NAME := by
    intro i
    simp only [regen_auth]
    by_cases hi : i = user_id
    · rw [if_pos hi]
      rw [if_neg (by simp [USER_NAME, USER_AUTH])]
      rw [hi]
    · rw [if_neg hi]
  refine ⟨?_, ?_, h3, ?_⟩
  · intro i name hrec
    rw [hrecords] at hrec
    exact h1 i name hrec
  · intro i field hgt
    simp only [regen_auth] at hgt ⊢
    have hi : ¬ i = user_id := by omega
    rw [if_neg hi]
    exact h2 i field hgt
  · intro key i hkey
    obtain ⟨hle2, name, hrec, hlow⟩ := h4 key i hkey
    refine ⟨hle2, name, ?_, hlow⟩
    rw [hrecords]
    exact hrec

/-- Every reachable state satisfies the storage invariant. -/
theorem inv_reach (st : Store) (h : Reach st) : Inv st := by
  induction h with
  | init => exact inv_empty
  | save argon2i auth salt_mail salt_pwd user st _ ih =>
    exact inv_save argon2i auth salt_mail salt_pwd user st ih
  | delete st auth _ ih => exact inv_delete st auth ih
  | login argon2i st info tok user_id _ hv ih =>
    have hu := verify_password_ok_usersList argon2i st info tok user_id hv
    exact inv_store_session tok.session_token user_id st ih (ih.2.2.2 _ _ hu).1
  | reissue st auth auth2 user_id _ hg ih =>
    have hs := get_user_id_ok st auth user_id hg
    exact inv_regen_auth auth2 user_id st ih (ih.2.2.1 auth user_id hs)

/-- Inversion of a successful registration: it implies the free-username
check and the counter-range check passed, the returned token is the
generated one, and state and trace are those of the success path. -/
theorem save_user_ok_inversion (argon2i : String → String → List Nat)
    (auth salt_mail salt_pwd : String) (user : User) (st st1 : Store)
    (tok : Token) (tr : List Ev)
    (h : save_user argon2i auth salt_mail salt_pwd user st = (Except.ok tok, st1, tr)) :
    st.usersList (to_lowercase user.username) = none ∧
    st.nextUserId + 1 < 2 ^ 32 ∧
    tok = { session_token := auth } ∧
    st1 = applyEvs st (saveEvs argon2i auth salt_mail salt_pwd user (st.nextUserId + 1)) ∧
    tr = saveEvs argon2i auth salt_mail salt_pwd user (st.nextUserId + 1) := by
  by_cases hfree : st.usersList (to_lowercase user.username) = none
  · by_cases hlt : st.nextUserId + 1 < 2 ^ 32
    · rw [save_user_ok argon2i auth salt_mail salt_pwd user st hfree hlt] at h
      simp only [Prod.mk.injEq, Except.ok.injEq] at h
      exact ⟨hfree, hlt, h.1.symm, h.2.1.symm, h.2.2.symm⟩
    · rw [save_user_overflow argon2i auth salt_mail salt_pwd user st hfree hlt] at h
      simp at h
  · have hsome : (st.usersList (to_lowercase user.username)).isSome = true :=
      Option.isSome_iff_ne_none.mpr hfree
    rw [save_user_taken argon2i auth salt_mail salt_pwd user st hsome] at h
    simp at h

/-! ## Claim theorems -/

/-- C10: when the lower-cased username is already present in the username
index, save_user returns the UsernameTaken error, issues no write (the
trace is the single hexists read), and leaves every field of the persisted
state exactly as it was - in particular the user-id counter is not
incremented and no record, index or session entry is created. -/
theorem c10_taken_rejects_without_any_write (argon2i : String → String → List Nat)
    (auth salt_mail salt_pwd : String) (user : User) (st : Store) (existing : Nat)
    (h : st.usersList (to_lowercase user.username) = some existing) :
    save_user argon2i auth salt_mail salt_pwd user st =
      (Except.error (ServerError.new USERNAME_TAKEN
          ("Username " ++ user.username ++ " is not available.")),
       st, [Ev.hexistsUsers (to_lowercase user.username)]) :=
  save_user_taken argon2i auth salt_mail salt_pwd user st (by rw [h]; rfl)

/-- Concrete instantiation of the external argon2 primitive for witnesses:
the data bytes themselves (injective in the data argument). -/
def argonConcrete : String → String → List Nat :=
  fun data _ => data.toList.map Char.toNat

/-- A one-account store: "toto" registered under id 1. -/
def totoStore : Store :=
  { nextUserId := 1
    records := fun i =>
      if i = 1 then
        (fun f =>
          if f = USER_NAME then some "toto"
          else if f = USER_PWD then some (hash argonConcrete "pwd" "17")
          else if f = USER_SALT_P then some "17"
          else if f = USER_MAIL then some (hash argonConcrete "m@m.com" "23")
          else if f = USER_SALT_M then some "23"
          else if f = USER_AUTH then some "tok1"
          else none)
      else fun _ => none
    usersList := fun k => if k = "toto" then some 1 else none
    sessions := fun t => if t = "tok1" then some 1 else none
    resources := fun _ => [] }

/-- Witness for C10: registering "ToTo" against a store already holding
"toto" is rejected with UsernameTaken and the state is untouched. -/
theorem c10_taken_rejects_without_any_write_witness :
    save_user argonConcrete "tok2" "5" "7"
        { username := "ToTo", email := "e@e.com", password := "x" } totoStore =
      (Except.error (ServerError.new USERNAME_TAKEN
          "Username ToTo is not available."),
       totoStore, [Ev.hexistsUsers "toto"]) := by
  have h := c10_taken_rejects_without_any_write argonConcrete "tok2" "5" "7"
    { username := "ToTo", email := "e@e.com", password := "x" } totoStore 1
    (by decide)
  simpa using h

/-- C1: for any two usernames whose lower-cased forms agree, a registration
performed after a successful one fails with UsernameTaken (so at most one
of the two succeeds), and in every reachable storage state no two distinct
account records have usernames normalizing to the same lower-cased
string. -/
theorem c1_username_uniqueness :
    (∀ (argon2i : String → String → List Nat) (a1 sm1 sp1 : String)
       (u1 u2 : User) (st st1 : Store) (tok : Token) (tr1 : List Ev),
       save_user argon2i a1 sm1 sp1 u1 st = (Except.ok tok, st1, tr1) →
       to_lowercase u2.username = to_lowercase u1.username →
       ∀ a2 sm2 sp2, (save_user argon2i a2 sm2 sp2 u2 st1).1 =
         Except.error (ServerError.new USERNAME_TAKEN
           ("Username " ++ u2.username ++ " is not available."))) ∧
    (∀ st : Store, Reach st → ∀ id1 id2 n1 n2,
       st.records id1 USER_NAME = some n1 → st.records id2 USER_NAME = some n2 →
       id1 ≠ id2 → to_lowercase n1 ≠ to_lowercase n2) := by
  constructor
  · intro argon2i a1 sm1 sp1 u1 u2 st st1 tok tr1 hsave hnorm a2 sm2 sp2
    obtain ⟨hfree, hlt, htok, hst1, htr⟩ :=
      save_user_ok_inversion argon2i a1 sm1 sp1 u1 st st1 tok tr1 hsave
    have hentry : st1.usersList (to_lowercase u2.username) = some (st.nextUserId + 1) := by
      rw [hst1, hnorm, saveState_usersList, if_pos rfl]
    have hsome : (st1.usersList (to_lowercase u2.username)).isSome = true := by
      rw [hentry]; rfl
    rw [save_user_taken argon2i a2 sm2 sp2 u2 st1 hsome]
  · intro st hreach id1 id2 n1 n2 hr1 hr2 hne hcontra
    obtain ⟨h1, _, _, _⟩ := inv_reach st hreach
    have e1 := h1 id1 n1 hr1
    have e2 := h1 id2 n2 hr2
    rw [hcontra, e2] at e1
    injection e1 with hv
    exact hne hv.symm

/-- Witness for C1: from the empty store, registering "toto" succeeds and a
following registration of "ToTo" fails with UsernameTaken; in the reachable
state after both calls, records 1 and 2 exist only for id 1, and the
invariant instance applies to the two-user state built by registering
"toto" and "tata". -/
theorem c1_username_uniqueness_witness :
    (save_user argonConcrete "t2" "5" "7"
        { username := "ToTo", email := "e", password := "x" }
        (save_user argonConcrete "t1" "11" "13"
          { username := "toto", email := "m@m.com", password := "pwd" }
          emptyStore).2.1).1 =
      Except.error (ServerError.new USERNAME_TAKEN
        "Username ToTo is not available.") ∧
    to_lowercase "toto" ≠ to_lowercase "tata" := by
  constructor
  · exact c1_username_uniqueness.1 argonConcrete "t1" "11" "13"
      { username := "toto", email := "m@m.com", password := "pwd" }
      { username := "ToTo", email := "e", password := "x" }
      emptyStore
      ((save_user argonConcrete "t1" "11" "13"
        { username := "toto", email := "m@m.com", password := "pwd" }
        emptyStore).2.1)
      { session_token := "t1" }
      ((save_user argonConcrete "t1" "11" "13"
        { username := "toto", email := "m@m.com", password := "pwd" }
        emptyStore).2.2)
      rfl (by decide) "t2" "5" "7"
  · have hst : Reach (save_user argonConcrete "t4" "27" "29"
        { username := "tata", email := "e2", password := "p2" }
        (save_user argonConcrete "t1" "11" "13"
          { username := "toto", email := "m@m.com", password := "pwd" }
          emptyStore).2.1).2.1 :=
      Reach.save _ _ _ _ _ _ (Reach.save _ _ _ _ _ _ Reach.init)
    exact c1_username_uniqueness.2 _ hst 1 2 "toto" "tata"
      (by decide) (by decide) (by decide)

/-- C7: the account record written by a successful registration holds the
username, the two hashes hash(password, password_salt) and
hash(email, email_salt), the two independently drawn salts alongside them,
and the session token - and nothing else: no field of the fresh record
holds the raw password or raw email other than through the hash images. -/
theorem c7_record_stores_only_hashes (argon2i : String → String → List Nat)
    (auth salt_mail salt_pwd : String) (user : User) (st st1 : Store)
    (tok : Token) (tr : List Ev) (hreach : Reach st)
    (hsave : save_user argon2i auth salt_mail salt_pwd user st = (Except.ok tok, st1, tr)) :
    st1.records (st.nextUserId + 1) USER_NAME = some user.username ∧
    st1.records (st.nextUserId + 1) USER_PWD =
      some (hash argon2i user.password salt_pwd) ∧
    st1.records (st.nextUserId + 1) USER_MAIL =
      some (hash argon2i user.email salt_mail) ∧
    st1.records (st.nextUserId + 1) USER_SALT_P = some salt_pwd ∧
    st1.records (st.nextUserId + 1) USER_SALT_M = some salt_mail ∧
    st1.records (st.nextUserId + 1) USER_AUTH = some auth ∧
    (∀ f, f ≠ USER_NAME → f ≠ USER_PWD → f ≠ USER_MAIL → f ≠ USER_SALT_P →
      f ≠ USER_SALT_M → f ≠ USER_AUTH → st1.records (st.nextUserId + 1) f = none) := by
  obtain ⟨hfree, hlt, htok, hst1, htr⟩ :=
    save_user_ok_inversion argon2i auth salt_mail salt_pwd user st st1 tok tr hsave
  obtain ⟨h1, h2, h3, h4⟩ := inv_reach st hreach
  subst hst1
  refine ⟨?_, ?_, ?_, ?_, ?_, ?_, ?_⟩
  · rw [saveState_records, if_pos rfl]
    simp [USER_NAME, USER_AUTH, USER_SALT_P, USER_SALT_M, USER_PWD, USER_MAIL]
  · rw [saveState_records, if_pos rfl]
    simp [USER_NAME, USER_AUTH, USER_SALT_P, USER_SALT_M, USER_PWD, USER_MAIL]
  · rw [saveState_records, if_pos rfl]
    simp [USER_NAME, USER_AUTH, USER_SALT_P, USER_SALT_M, USER_PWD, USER_MAIL]
  · rw [saveState_records, if_pos rfl]
    simp [USER_SALT_P, USER_AUTH]
  · rw [saveState_records, if_pos rfl]
    simp [USER_SALT_M, USER_AUTH, USER_SALT_P]
  · rw [saveState_records, if_pos rfl, if_pos rfl]
  · intro f hn hp hm hsp hsm ha
    rw [saveState_records, if_pos rfl]
    rw [if_neg ha, if_neg hsp, if_neg hsm, if_neg hp, if_neg hm, if_neg hn]
    exact h2 (st.nextUserId + 1) f (by omega)

/-- Witness for C7: a concrete registration from the empty store stores
exactly the six fields, with hashed password and email. -/
theorem c7_record_stores_only_hashes_witness :
    (save_user argonConcrete "t1" "11" "13"
        { username := "toto", email := "m@m.com", password := "pwd" }
        emptyStore).2.1.records 1 USER_PWD = some (hash argonConcrete "pwd" "13") ∧
    (save_user argonConcrete "t1" "11" "13"
        { username := "toto", email := "m@m.com", password := "pwd" }
        emptyStore).2.1.records 1 "stray_field" = none := by
  have h := c7_record_stores_only_hashes argonConcrete "t1" "11" "13"
    { username := "toto", email := "m@m.com", password := "pwd" }
    emptyStore
    ((save_user argonConcrete "t1" "11" "13"
      { username := "toto", email := "m@m.com", password := "pwd" }
      emptyStore).2.1)
    { session_token := "t1" }
    ((save_user argonConcrete "t1" "11" "13"
      { username := "toto", email := "m@m.com", password := "pwd" }
      emptyStore).2.2)
    Reach.init rfl
  exact ⟨h.2.1, h.2.2.2.2.2.2 "stray_field"
    (by decide) (by decide) (by decide) (by decide) (by decide) (by decide)⟩

/-- C5: after a successful delete_user(token), the token no longer resolves
(Unauthorized), the username-index entry keyed by the lower-cased stored
username is gone, every field of the account record is deleted, and the
same lower-cased username can be registered again (the free-username check
passes, so a registration with counter room succeeds). -/
theorem c5_delete_user_effects (st : Store) (auth : String) (user_id : Nat)
    (username : String)
    (hsess : st.sessions auth = some user_id)
    (hname : st.records user_id USER_NAME = some username) :
    (delete_user st auth).1 = Except.ok () ∧
    get_user_id (delete_user st auth).2.1 auth =
      Except.error (ServerError.new UNAUTHORISED "Unauthorized") ∧
    (delete_user st auth).2.1.usersList (to_lowercase username) = none ∧
    (∀ f, (delete_user st auth).2.1.records user_id f = none) ∧
    (∀ (argon2i : String → String → List Nat) (a2 sm2 sp2 : String) (u2 : User),
      to_lowercase u2.username = to_lowercase username →
      st.nextUserId + 1 < 2 ^ 32 →
      (save_user argon2i a2 sm2 sp2 u2 (delete_user st auth).2.1).1 =
        Except.ok { session_token := a2 }) := by
  have hst : (delete_user st auth).2.1 = applyEvs st (deleteEvs auth user_id username) := by
    rw [delete_user_ok st auth user_id username hsess hname]
  have hres : (delete_user st auth).1 = Except.ok () := by
    rw [delete_user_ok st auth user_id username hsess hname]
  refine ⟨hres, ?_, ?_, ?_, ?_⟩
  · rw [hst]
    have hgone : (applyEvs st (deleteEvs auth user_id username)).sessions auth = none := by
      rw [deleteState_sessions st auth user_id username hsess, if_pos hsess]
    simp [get_user_id, hgone]
  · rw [hst, deleteState_usersList st auth user_id username hsess, if_pos rfl]
  · intro f
    rw [hst, deleteState_records st auth user_id username hsess, if_pos rfl]
  · intro argon2i a2 sm2 sp2 u2 hnorm hlt
    have hfree : (delete_user st auth).2.1.usersList (to_lowercase u2.username) = none := by
      rw [hst, hnorm, deleteState_usersList st auth user_id username hsess, if_pos rfl]
    have hcnt : (delete_user st auth).2.1.nextUserId = st.nextUserId := by
      rw [hst, deleteState_nextUserId st auth user_id username hsess]
    rw [save_user_ok argon2i a2 sm2 sp2 u2 (delete_user st auth).2.1 hfree (by omega)]

/-- Witness for C5: deleting the "toto" account of the one-account store via
its session token revokes the token, frees the index entry, erases the
record, and lets "ToTo" register afterwards. -/
theorem c5_delete_user_effects_witness :
    (delete_user totoStore "tok1").1 = Except.ok () ∧
    get_user_id (delete_user totoStore "tok1").2.1 "tok1" =
      Except.error (ServerError.new UNAUTHORISED "Unauthorized") ∧
    (delete_user totoStore "tok1").2.1.usersList "toto" = none ∧
    (delete_user totoStore "tok1").2.1.records 1 USER_NAME = none ∧
    (save_user argonConcrete "t9" "31" "37"
        { username := "ToTo", email := "e", password := "p" }
        (delete_user totoStore "tok1").2.1).1 =
      Except.ok { session_token := "t9" } := by
  have h := c5_delete_user_effects totoStore "tok1" 1 "toto"
    (by decide) (by decide)
  refine ⟨h.1, h.2.1, ?_, h.2.2.2.1 USER_NAME, ?_⟩
  · have := h.2.2.1
    simpa using this
  · exact h.2.2.2.2 argonConcrete "t9" "31" "37"
      { username := "ToTo", email := "e", password := "p" }
      (by decide) (by decide)

/-- C2: against the state produced by registering one account `user` in the
empty store, verify_password succeeds exactly for a username that matches
the registered one case-insensitively together with the registered
password: with the right credentials it returns the stored session token
(the one registration returned) and the account id; with a matching
username but a password whose hash differs from the registered one, and
with an unknown username, it fails - both failure causes returning the one
identical InvalidCredentials error value, indistinguishable from each
other.  (The password mismatch is phrased on the hash images, which is the
comparison the code performs; the external argon2 primitive is a model
parameter.) -/
theorem c2_verify_password_iff (argon2i : String → String → List Nat)
    (auth salt_mail salt_pwd : String) (user : User) (st1 : Store)
    (tok : Token) (tr : List Ev)
    (hsave : save_user argon2i auth salt_mail salt_pwd user emptyStore =
      (Except.ok tok, st1, tr)) :
    (∀ n p, to_lowercase n = to_lowercase user.username → p = user.password →
      verify_password argon2i st1 { username := n, password := p } =
        Except.ok (tok, 1)) ∧
    (∀ n p, to_lowercase n = to_lowercase user.username →
      hash argon2i p salt_pwd ≠ hash argon2i user.password salt_pwd →
      verify_password argon2i st1 { username := n, password := p } =
        Except.error (ServerError.new INVALID_USER_OR_PWD "Invalid usename or password")) ∧
    (∀ n p, to_lowercase n ≠ to_lowercase user.username →
      verify_password argon2i st1 { username := n, password := p } =
        Except.error (ServerError.new INVALID_USER_OR_PWD "Invalid usename or password")) := by
  obtain ⟨hfree, hlt, htok, hst1, htr⟩ :=
    save_user_ok_inversion argon2i auth salt_mail salt_pwd user emptyStore st1 tok tr hsave
  subst hst1
  have hrec : ∀ f : String,
      (applyEvs emptyStore (saveEvs argon2i auth salt_mail salt_pwd user
        (emptyStore.nextUserId + 1))).records 1 f =
      (if f = USER_AUTH then some auth
       else if f = USER_SALT_P then some salt_pwd
       else if f = USER_SALT_M then some salt_mail
       else if f = USER_PWD then some (hash argon2i user.password salt_pwd)
       else if f = USER_MAIL then some (hash argon2i user.email salt_mail)
       else if f = USER_NAME then some user.username
       else none) := by
    intro f
    rw [saveState_records]
    rfl
  have hsp : (applyEvs emptyStore (saveEvs argon2i auth salt_mail salt_pwd user
      (emptyStore.nextUserId + 1))).records 1 USER_SALT_P = some salt_pwd := by
    rw [hrec]
    simp [USER_SALT_P, USER_AUTH]
  have hpw : (applyEvs emptyStore (saveEvs argon2i auth salt_mail salt_pwd user
      (emptyStore.nextUserId + 1))).records 1 USER_PWD =
      some (hash argon2i user.password salt_pwd) := by
    rw [hrec]
    simp [USER_PWD, USER_AUTH, USER_SALT_P, USER_SALT_M]
  have hau : (applyEvs emptyStore (saveEvs argon2i auth salt_mail salt_pwd user
      (emptyStore.nextUserId + 1))).records 1 USER_AUTH = some auth := by
    rw [hrec]
    simp
  refine ⟨?_, ?_, ?_⟩
  · intro n p hn hp
    have hidxn : (applyEvs emptyStore (saveEvs argon2i auth salt_mail salt_pwd user
        (emptyStore.nextUserId + 1))).usersList (to_lowercase n) = some 1 := by
      rw [saveState_usersList, if_pos hn]
      rfl
    simp only [verify_password, hidxn, hsp, hpw, hau]
    rw [hp, if_pos rfl, htok]
  · intro n p hn hne
    have hidxn : (applyEvs emptyStore (saveEvs argon2i auth salt_mail salt_pwd user
        (emptyStore.nextUserId + 1))).usersList (to_lowercase n) = some 1 := by
      rw [saveState_usersList, if_pos hn]
      rfl
    simp only [verify_password, hidxn, hsp, hpw]
    rw [if_neg hne]
  · intro n p hn
    have hidxn : (applyEvs emptyStore (saveEvs argon2i auth salt_mail salt_pwd user
        (emptyStore.nextUserId + 1))).usersList (to_lowercase n) = none := by
      rw [saveState_usersList, if_neg hn]
      rfl
    simp only [verify_password, hidxn]

/-- Witness for C2: after registering toto/pwd from the empty store, login
with (toto, pwd) returns the stored token and id 1, logins with (toto,
pwdb) and (ToTo, wrong) fail, and login with unknown username fails with
the very same error value. -/
theorem c2_verify_password_iff_witness :
    verify_password argonConcrete
        (save_user argonConcrete "t1" "11" "13"
          { username := "toto", email := "m@m.com", password := "pwd" }
          emptyStore).2.1
        { username := "toto", password := "pwd" } =
      Except.ok ({ session_token := "t1" }, 1) ∧
    verify_password argonConcrete
        (save_user argonConcrete "t1" "11" "13"
          { username := "toto", email := "m@m.com", password := "pwd" }
          emptyStore).2.1
        { username := "ToTo", password := "pwdb" } =
      Except.error (ServerError.new INVALID_USER_OR_PWD "Invalid usename or password") ∧
    verify_password argonConcrete
        (save_user argonConcrete "t1" "11" "13"
          { username := "toto", email := "m@m.com", password := "pwd" }
          emptyStore).2.1
        { username := "tato", password := "pwd" } =
      Except.error (ServerError.new INVALID_USER_OR_PWD "Invalid usename or password") := by
  have h := c2_verify_password_iff argonConcrete "t1" "11" "13"
    { username := "toto", email := "m@m.com", password := "pwd" }
    ((save_user argonConcrete "t1" "11" "13"
      { username := "toto", email := "m@m.com", password := "pwd" }
      emptyStore).2.1)
    { session_token := "t1" }
    ((save_user argonConcrete "t1" "11" "13"
      { username := "toto", email := "m@m.com", password := "pwd" }
      emptyStore).2.2)
    rfl
  exact ⟨h.1 "toto" "pwd" (by decide) (by decide),
    h.2.1 "ToTo" "pwdb" (by decide) (by decide),
    h.2.2 "tato" "pwd" (by decide)⟩

/-- C4: in a successful registration from a reachable state, the trace is
exactly the success-path command list, in which the full account record
write (hsetRecord) precedes the username-index insert (hsetUsers); and
after every prefix of the trace, every username-index entry still points at
an id whose account record exists (has its username field), so no
intermediate state maps the normalized username to a missing record. -/
theorem c4_record_written_before_index (argon2i : String → String → List Nat)
    (auth salt_mail salt_pwd : String) (user : User) (st st1 : Store)
    (tok : Token) (tr : List Ev) (hreach : Reach st)
    (hsave : save_user argon2i auth salt_mail salt_pwd user st = (Except.ok tok, st1, tr)) :
    tr = [Ev.hexistsUsers (to_lowercase user.username), Ev.incrNextUserId,
      Ev.hsetRecord (st.nextUserId + 1)
        (recordFields argon2i auth salt_mail salt_pwd user),
      Ev.hsetUsers (to_lowercase user.username) (st.nextUserId + 1),
      Ev.storeSession auth (st.nextUserId + 1)] ∧
    (∀ i : Nat, ∀ k id, (applyEvs st (tr.take i)).usersList k = some id →
      (applyEvs st (tr.take i)).records id USER_NAME ≠ none) := by
  obtain ⟨hfree, hlt, htok, hst1, htr⟩ :=
    save_user_ok_inversion argon2i auth salt_mail salt_pwd user st st1 tok tr hsave
  obtain ⟨h1, h2, h3, h4⟩ := inv_reach st hreach
  have hbase : ∀ k id, st.usersList k = some id → st.records id USER_NAME ≠ none := by
    intro k id hk
    obtain ⟨_, name, hrec, _⟩ := h4 k id hk
    rw [hrec]
    simp
  have hnewrec : ∀ (base : String → Option String),
      setFields base (recordFields argon2i auth salt_mail salt_pwd user) USER_NAME =
        some user.username := by
    intro base
    simp [recordFields, setFields, USER_NAME, USER_AUTH, USER_SALT_P, USER_SALT_M,
      USER_PWD, USER_MAIL]
  subst htr
  refine ⟨rfl, ?_⟩
  intro i
  match i with
  | 0 => exact hbase
  | 1 => exact hbase
  | 2 => exact hbase
  | 3 =>
    intro k id hk
    simp only [saveEvs, List.take, applyEvs, List.foldl, applyEv] at hk ⊢
    by_cases hid : id = st.nextUserId + 1
    · rw [if_pos hid, hnewrec]
      simp
    · rw [if_neg hid]
      exact hbase k id hk
  | 4 =>
    intro k id hk
    simp only [saveEvs, List.take, applyEvs, List.foldl, applyEv] at hk ⊢
    by_cases hkey : k = to_lowercase user.username
    · rw [if_pos hkey] at hk
      injection hk with hid
      rw [if_pos hid.symm, hnewrec]
      simp
    · rw [if_neg hkey] at hk
      by_cases hid : id = st.nextUserId + 1
      · rw [if_pos hid, hnewrec]
        simp
      · rw [if_neg hid]
        exact hbase k id hk
  | n + 5 =>
    intro k id hk
    rw [List.take_of_length_le (by simp [saveEvs])] at hk ⊢
    rw [saveState_usersList] at hk
    rw [saveState_records]
    by_cases hkey : k = to_lowercase user.username
    · rw [if_pos hkey] at hk
      injection hk with hid
      rw [if_pos hid.symm]
      simp [USER_NAME, USER_AUTH, USER_SALT_P, USER_SALT_M, USER_PWD, USER_MAIL]
    · rw [if_neg hkey] at hk
      by_cases hid : id = st.nextUserId + 1
      · rw [if_pos hid]
        simp [USER_NAME, USER_AUTH, USER_SALT_P, USER_SALT_M, USER_PWD, USER_MAIL]
      · rw [if_neg hid]
        exact hbase k id hk

/-- Witness for C4: the concrete registration of toto from the empty store
has the expected trace, and at the prefix of length 3 (record written,
index not yet) every index entry resolves to an existing record. -/
theorem c4_record_written_before_index_witness :
    (save_user argonConcrete "t1" "11" "13"
        { username := "toto", email := "m@m.com", password := "pwd" }
        emptyStore).2.2 =
      [Ev.hexistsUsers "toto", Ev.incrNextUserId,
       Ev.hsetRecord 1 (recordFields argonConcrete "t1" "11" "13"
         { username := "toto", email := "m@m.com", password := "pwd" }),
       Ev.hsetUsers "toto" 1, Ev.storeSession "t1" 1] ∧
    ((applyEvs emptyStore ((save_user argonConcrete "t1" "11" "13"
        { username := "toto", email := "m@m.com", password := "pwd" }
        emptyStore).2.2.take 3)).usersList "toto" = none) := by
  have h := c4_record_written_before_index argonConcrete "t1" "11" "13"
    { username := "toto", email := "m@m.com", password := "pwd" }
    emptyStore
    ((save_user argonConcrete "t1" "11" "13"
      { username := "toto", email := "m@m.com", password := "pwd" }
      emptyStore).2.1)
    { session_token := "t1" }
    ((save_user argonConcrete "t1" "11" "13"
      { username := "toto", email := "m@m.com", password := "pwd" }
      emptyStore).2.2)
    Reach.init rfl
  refine ⟨by simpa using h.1, by decide⟩

/-! ## Characterization of get_next_id -/

theorem get_next_id_salt_present {RV : Type} (argon2i : String → String → List Nat)
    (from_str : String → Option RV) (gensalt : String) (st : IdStore) (s : String)
    (hs : st.salt = some s) (hlt : st.counter + 1 < 2 ^ 32) :
    get_next_id argon2i from_str gensalt st =
      ((match from_str (hash argon2i (toString (st.counter + 1)) s) with
        | some rv => Except.ok rv
        | none => Except.error (ServerError.new INTERNAL_ERROR
            "Creation of hashed id failed, cannot be")),
       { counter := st.counter + 1, salt := some s },
       [IdEv.incr, IdEv.existsSalt, IdEv.getSalt]) := by
  simp [get_next_id, hs, hlt, applyIdEvs, applyIdEv]
  omega

theorem get_next_id_salt_absent {RV : Type} (argon2i : String → String → List Nat)
    (from_str : String → Option RV) (gensalt : String) (st : IdStore)
    (hs : st.salt = none) (hlt : st.counter + 1 < 2 ^ 32) :
    get_next_id argon2i from_str gensalt st =
      ((match from_str (hash argon2i (toString (st.counter + 1)) gensalt) with
        | some rv => Except.ok rv
        | none => Except.error (ServerError.new INTERNAL_ERROR
            "Creation of hashed id failed, cannot be")),
       { counter := st.counter + 1, salt := some gensalt },
       [IdEv.incr, IdEv.existsSalt, IdEv.setSalt gensalt]) := by
  simp [get_next_id, hs, hlt, applyIdEvs, applyIdEv]
  omega

/-- Does the trace contain a conditional set-if-absent write of the salt? -/
def hasSetSaltNX (tr : List IdEv) : Bool :=
  tr.any (fun e =>
    match e with
    | IdEv.setSaltNX _ => true
    | _ => false)

/-- Does the trace contain a read of the salt key (a re-fetch)? -/
def hasGetSalt (tr : List IdEv) : Bool :=
  tr.any (fun e =>
    match e with
    | IdEv.getSalt => true
    | _ => false)

/-- Counterexample to C3: at the concrete first-caller input (counter 0, no
salt stored), the trace of get_next_id is incr, exists, then a plain
unconditional set - it contains no set-if-absent write and no read of the
salt key at all, so the fresh salt is neither persisted conditionally nor
re-fetched from storage after the write, contrary to the claim. -/
theorem c3_salt_counterexample :
    (get_next_id argonConcrete (fun x => some x) "123"
        { counter := 0, salt := none }).2.2 =
      [IdEv.incr, IdEv.existsSalt, IdEv.setSalt "123"] ∧
    hasSetSaltNX (get_next_id argonConcrete (fun x => some x) "123"
        { counter := 0, salt := none }).2.2 = false ∧
    hasGetSalt (get_next_id argonConcrete (fun x => some x) "123"
        { counter := 0, salt := none }).2.2 = false := by
  refine ⟨by decide, by decide, by decide⟩

/-- C3 amended: when the named salt is absent, get_next_id persists the
freshly generated salt with a plain unconditional set and uses the locally
generated value for the hash without re-fetching it from storage (the trace
has no conditional write and no salt read); sequentially, the salt left in
storage is that same locally generated value. -/
theorem c3_salt_set_unconditional_no_refetch {RV : Type}
    (argon2i : String → String → List Nat) (from_str : String → Option RV)
    (gensalt : String) (st : IdStore)
    (hs : st.salt = none) (hlt : st.counter + 1 < 2 ^ 32) :
    get_next_id argon2i from_str gensalt st =
      ((match from_str (hash argon2i (toString (st.counter + 1)) gensalt) with
        | some rv => Except.ok rv
        | none => Except.error (ServerError.new INTERNAL_ERROR
            "Creation of hashed id failed, cannot be")),
       { counter := st.counter + 1, salt := some gensalt },
       [IdEv.incr, IdEv.existsSalt, IdEv.setSalt gensalt]) ∧
    hasSetSaltNX (get_next_id argon2i from_str gensalt st).2.2 = false ∧
    hasGetSalt (get_next_id argon2i from_str gensalt st).2.2 = false := by
  have h := get_next_id_salt_absent argon2i from_str gensalt st hs hlt
  refine ⟨h, ?_, ?_⟩ <;> rw [h] <;> rfl

/-- Witness for the amended C3 at the concrete first-caller input. -/
theorem c3_salt_set_unconditional_no_refetch_witness :
    get_next_id argonConcrete (fun x => some x) "123"
        { counter := 0, salt := none } =
      (Except.ok (hash argonConcrete "1" "123"),
       { counter := 1, salt := some "123" },
       [IdEv.incr, IdEv.existsSalt, IdEv.setSalt "123"]) := by
  have h := c3_salt_set_unconditional_no_refetch argonConcrete (fun x => some x)
    "123" { counter := 0, salt := none } rfl (by decide)
  rw [h.1]
  rfl

/-- Outputs and final state of N successive get_next_id calls with the salt
already in place. -/
theorem runNextIds_spec (argon2i : String → String → List Nat)
    (gensalt s : String) :
    ∀ (N : Nat) (st : IdStore), st.salt = some s → st.counter + N < 2 ^ 32 →
      (runNextIds argon2i gensalt N st).1 =
        (List.range N).map
          (fun k => Except.ok (hash argon2i (toString (st.counter + k + 1)) s)) ∧
      (runNextIds argon2i gensalt N st).2 =
        { counter := st.counter + N, salt := some s } := by
  intro N
  induction N with
  | zero =>
    intro st hs hlt
    refine ⟨rfl, ?_⟩
    cases st with
    | mk c sl => simp only [runNextIds] at hs ⊢; simp [hs]
  | succ n ih =>
    intro st hs hlt
    have hstep := get_next_id_salt_present argon2i (fun x => some x) gensalt st s
      hs (by omega)
    obtain ⟨ih1, ih2⟩ := ih { counter := st.counter + 1, salt := some s } rfl
      (by simp; omega)
    simp only [runNextIds, hstep]
    rw [ih1, ih2]
    refine ⟨?_, by simp [IdStore.mk.injEq]; omega⟩
    rw [List.range_succ_eq_map]
    simp only [List.map_cons, List.map_map, Function.comp]
    have harith : ∀ k : Nat, st.counter + 1 + k + 1 = st.counter + (k + 1) + 1 := by
      omega
    simp [harith]

/-- C6: get_next_id increments the counter by one each call (modelling the
atomic increment of the backend; the counter of a fresh store is 0 and the first
call observes value 1), its output is hash(counterValueAsString, salt) - an
explicit function of the counter value and the salt alone, so equal inputs
give equal outputs - and, provided the hash is injective on the counter
values used (hypothesis hinj), the outputs of N calls with a fixed salt,
N within the u32 counter range, are pairwise distinct. -/
theorem c6_next_id_counter_and_distinct (argon2i : String → String → List Nat)
    (gensalt s : String) (N : Nat) (st0 : IdStore)
    (hsalt : st0.salt = some s) (hzero : st0.counter = 0) (hN : N < 2 ^ 32)
    (hinj : ∀ i ∈ List.range (N + 1), ∀ j ∈ List.range (N + 1),
      hash argon2i (toString i) s = hash argon2i (toString j) s → i = j) :
    (runNextIds argon2i gensalt N st0).1 =
      (List.range N).map (fun k => Except.ok (hash argon2i (toString (k + 1)) s)) ∧
    (runNextIds argon2i gensalt N st0).2.counter = N ∧
    (runNextIds argon2i gensalt N st0).1.Nodup ∧
    (∀ st : IdStore, st.salt = some s → st.counter + 1 < 2 ^ 32 →
      (get_next_id argon2i (fun x => some x) gensalt st).1 =
        Except.ok (hash argon2i (toString (st.counter + 1)) s) ∧
      (get_next_id argon2i (fun x => some x) gensalt st).2.1.counter =
        st.counter + 1) := by
  obtain ⟨h1, h2⟩ := runNextIds_spec argon2i gensalt s N st0 hsalt (by omega)
  rw [hzero] at h1 h2
  simp only [Nat.zero_add] at h1 h2
  refine ⟨h1, by rw [h2], ?_, ?_⟩
  · rw [h1]
    refine List.Nodup.map_on ?_ (List.nodup_range N)
    intro x hx y hy hxy
    simp only [Except.ok.injEq] at hxy
    have hx1 : x + 1 ∈ List.range (N + 1) := by
      simp only [List.mem_range] at hx ⊢
      omega
    have hy1 : y + 1 ∈ List.range (N + 1) := by
      simp only [List.mem_range] at hy ⊢
      omega
    have := hinj (x + 1) hx1 (y + 1) hy1 hxy
    omega
  · intro st hsp hltp
    have hstep := get_next_id_salt_present argon2i (fun x => some x) gensalt st s
      hsp hltp
    rw [hstep]
    exact ⟨rfl, rfl⟩

/-- Witness for C6 at N = 3 with a concrete injective hash instance. -/
theorem c6_next_id_counter_and_distinct_witness :
    (runNextIds argonConcrete "g" 3 { counter := 0, salt := some "s" }).1 =
      [Except.ok (hash argonConcrete "1" "s"), Except.ok (hash argonConcrete "2" "s"),
       Except.ok (hash argonConcrete "3" "s")] ∧
    (runNextIds argonConcrete "g" 3 { counter := 0, salt := some "s" }).2.counter = 3 ∧
    (runNextIds argonConcrete "g" 3 { counter := 0, salt := some "s" }).1.Nodup := by
  have h := c6_next_id_counter_and_distinct argonConcrete "g" "s" 3
    { counter := 0, salt := some "s" } rfl rfl (by decide) (by decide)
  exact ⟨by rw [h.1]; rfl, h.2.1, h.2.2.1⟩

/-- C8: a raw backend error is converted at the boundary into a ServerError
carrying the InternalError status (the From conversions for redis and r2d2
errors); the operations never surface a raw backend error - in the model,
the backend-conversion failures inside the operations (reading a missing
record field, an incr reply past the u32 range) are returned through that
conversion, hence with InternalError status. -/
theorem c8_backend_errors_become_internal :
    (∀ e : RedisError, (ServerError.ofRedisError e).status = INTERNAL_ERROR) ∧
    (∀ e : R2d2Error, (ServerError.ofR2d2Error e).status = INTERNAL_ERROR) ∧
    (∀ (st : Store) (auth : String) (user_id : Nat),
      st.sessions auth = some user_id →
      st.records user_id USER_NAME = none →
      (delete_user st auth).1 = Except.error (ServerError.ofRedisError redisTypeError) ∧
      (ServerError.ofRedisError redisTypeError).status = INTERNAL_ERROR) ∧
    (∀ (argon2i : String → String → List Nat) (from_str : String → Option String)
       (gensalt : String) (st : IdStore), ¬ st.counter + 1 < 2 ^ 32 →
      (get_next_id argon2i from_str gensalt st).1 =
        Except.error (ServerError.ofRedisError redisTypeError) ∧
      (ServerError.ofRedisError redisTypeError).status = INTERNAL_ERROR) := by
  refine ⟨fun e => rfl, fun e => rfl, ?_, ?_⟩
  · intro st auth user_id hsess hname
    refine ⟨?_, rfl⟩
    rw [delete_user_no_record st auth user_id hsess hname]
  · intro argon2i from_str gensalt st hge
    refine ⟨?_, rfl⟩
    unfold get_next_id
    rw [if_neg hge]

/-- Witness for C8: a dangling session over a missing record makes
delete_user fail with status 500, and an exhausted u32 counter makes
get_next_id fail with status 500. -/
theorem c8_backend_errors_become_internal_witness :
    (ServerError.ofRedisError { msg := "io error" }).status = INTERNAL_ERROR ∧
    ((delete_user
        { nextUserId := 5
          records := fun _ _ => none
          usersList := fun _ => none
          sessions := fun t => if t = "ghost" then some 3 else none
          resources := fun _ => [] } "ghost").1 =
      Except.error (ServerError.ofRedisError redisTypeError)) ∧
    ((get_next_id argonConcrete (fun x => some x) "g"
        { counter := 2 ^ 32 - 1, salt := some "s" }).1 =
      Except.error (ServerError.ofRedisError redisTypeError)) := by
  have h := c8_backend_errors_become_internal
  refine ⟨h.1 { msg := "io error" }, ?_, ?_⟩
  · exact (h.2.2.1
      { nextUserId := 5
        records := fun _ _ => none
        usersList := fun _ => none
        sessions := fun t => if t = "ghost" then some 3 else none
        resources := fun _ => [] } "ghost" 3 (by decide) rfl).1
  · exact (h.2.2.2 argonConcrete (fun x => some x) "g"
      { counter := 2 ^ 32 - 1, salt := some "s" } (by decide)).1

end Efficio
